import Mathlib

/-!
Verification of the gphoto sync/upload client (`src/gphoto/`) against its
natural-language specification.

The development shallowly embeds the Python sources:

* `models.MediaItem` and the two tables created by `db.AsyncStorage`
  (`remote_media`, `state`) become Lean structures; every table mutation of
  `db.py` becomes a pure function on `StorageState`.
* `db_update_parser.py` becomes `parse_db_update` over a flattened record of
  the protobuf-dict paths the Python reads; decode failures become `Except`.
* The sync engine of `client.py` (`update_cache`, `_cache_init`,
  `_cache_update`, `_process_pages`, `_process_pages_init`) becomes explicit
  state-passing over `StorageState`, with an event trace recording the order
  of storage writes, and an environment supplying fetch results.  The Python
  `while` loops become fuel-indexed recursion (the shutdown event is modelled
  as never set).
* The retry wrapper `api.Api._request` becomes `requestRun`, driven by a map
  from attempt index to HTTP status.
* The upload pipeline step `client.GPhoto._upload_file` becomes
  `uploadFileStep`, driven by per-operation status scripts.

Floating-point EXIF/geo enrichment of media items (`db_update_parser.py`
lines 46-82) populates optional fields no verified claim mentions; those
optional decorations are outside the embedding, which models the mandatory
construction of `MediaItem` (lines 23-44) including its failure cases.
-/

/-- `models.MediaItem`: one mirrored media record.  Fields are the dataclass
fields of `models.py`; the float-typed EXIF/geolocation options are omitted
(see module header), which leaves every field the verified claims touch. -/
structure MediaItem where
  media_key : String
  file_name : String
  dedup_key : String
  is_canonical : Bool
  type : Int
  caption : Option String
  collection_id : String
  size_bytes : Int
  quota_charged_bytes : Int
  origin : String
  content_version : Int
  utc_timestamp : Int
  server_creation_timestamp : Int
  timezone_offset : Option Int := none
  width : Option Int := none
  height : Option Int := none
  remote_url : String := ""
  upload_status : Option Int := none
  trash_timestamp : Option Int := none
  is_archived : Bool := false
  is_favorite : Bool := false
  is_locked : Bool := false
  is_original_quality : Bool := false
  location_name : Option String := none
  location_id : Option String := none
  is_edited : Bool := false
  make : Option String := none
  model : Option String := none
  iso : Option Int := none
  duration : Option Int := none
  is_micro_video : Bool := false
  micro_video_width : Option Int := none
  micro_video_height : Option Int := none
  user_name : Option String := none
  name : Option String := none
  path : Option String := none
deriving DecidableEq, Repr

/-- One row of the `state` table of `db.AsyncStorage._create_tables`:
per-identity cursor plus the init flag. -/
structure StateRow where
  state_token : String
  page_token : String
  init_complete : Bool
  user_name : String
deriving DecidableEq, Repr

/-- The persistent store: the `remote_media` table (rows keyed by the
`media_key` primary key) and the `state` table (rows keyed by the unique
`user_name`). -/
structure StorageState where
  remote_media : List MediaItem
  state : List StateRow
deriving DecidableEq, Repr

def emptyStorage : StorageState := ⟨[], []⟩

/-- `db.AsyncStorage.update` builds each inserted row from
`{**asdict(item), "user_name": self.user}`: the item with the connection's
user stamped on. -/
def toRow (user : String) (item : MediaItem) : MediaItem :=
  { item with user_name := some user }

/-- One `INSERT ... ON CONFLICT (media_key) DO UPDATE SET <every other
column> = EXCLUDED.<column>` statement: replace the row with the same
primary key, or append a new row. -/
def upsertOne (r : MediaItem) (rows : List MediaItem) : List MediaItem :=
  if rows.any (fun x => x.media_key == r.media_key) then
    rows.map (fun x => if x.media_key == r.media_key then r else x)
  else
    rows ++ [r]

/-- `db.AsyncStorage.update(items)`: the upsert statement executed once per
item, in order. -/
def storageUpdateRows (user : String) (items : List MediaItem)
    (rows : List MediaItem) : List MediaItem :=
  items.foldl (fun acc it => upsertOne (toRow user it) acc) rows

def storageUpdate (user : String) (items : List MediaItem)
    (s : StorageState) : StorageState :=
  { s with remote_media := storageUpdateRows user items s.remote_media }

/-- `db.AsyncStorage.delete(media_keys)`:
`DELETE FROM remote_media WHERE media_key = ANY($1)`. -/
def storageDeleteRows (keys : List String) (rows : List MediaItem) :
    List MediaItem :=
  rows.filter (fun r => !(keys.contains r.media_key))

def storageDelete (keys : List String) (s : StorageState) : StorageState :=
  { s with remote_media := storageDeleteRows keys s.remote_media }

/-- `db.AsyncStorage.get_item_by_media_key`:
`SELECT * FROM remote_media WHERE media_key = $1` (first row or none). -/
def getByMediaKey (k : String) (s : StorageState) : Option MediaItem :=
  s.remote_media.find? (fun r => r.media_key == k)

/-- `db.AsyncStorage.get_state_tokens`: the cursor of the user's state row,
`("", "")` when the row does not exist. -/
def getStateTokens (user : String) (s : StorageState) : String × String :=
  match s.state.find? (fun r => r.user_name == user) with
  | some r => (r.state_token, r.page_token)
  | none => ("", "")

/-- `db.AsyncStorage.update_state_tokens(state_token?, page_token?)`: an
`UPDATE state SET ... WHERE user_name = $n` writing only the supplied
columns (a no-op when the user has no state row, and a no-op on the token
columns when both arguments are omitted). -/
def updateStateTokens (user : String) (st pt : Option String)
    (s : StorageState) : StorageState :=
  if st.isNone && pt.isNone then s
  else
    { s with
      state := s.state.map (fun r =>
        if r.user_name == user then
          { r with
            state_token := st.getD r.state_token
            page_token := pt.getD r.page_token }
        else r) }

/-- `db.AsyncStorage.get_init_state`: read the user's `init_complete`;
when the user has no state row, insert the default row
`('', '', FALSE, user)` and report `false`. -/
def getInitState (user : String) (s : StorageState) : Bool × StorageState :=
  match s.state.find? (fun r => r.user_name == user) with
  | some r => (r.init_complete, s)
  | none => (false, { s with state := s.state ++ [⟨"", "", false, user⟩] })

/-- `db.AsyncStorage.set_init_state`:
`UPDATE state SET init_complete = $1 WHERE user_name = $2`. -/
def setInitState (user : String) (b : Bool) (s : StorageState) :
    StorageState :=
  { s with
    state := s.state.map (fun r =>
      if r.user_name == user then { r with init_complete := b } else r) }

/-! ### Delta-page decoding (`db_update_parser.py`)

The raw protobuf-decoded dicts are flattened into records whose field names
spell the dict path the Python reads (`d2_4` is `d["2"]["4"]`, etc.).
`Option` marks paths read with `.get`/defaults or paths whose absence the
claims exercise; plain fields are paths whose absence is a malformed
message outside the embedding. -/

/-- A raw media entry, carrying the dict paths `_parse_media_item` reads.
The dedup-key extraction (a string under a `"1…"` key of `d["2"]["21"]`,
with a base64 re-encoding of `d["2"]["13"]["1"]` as fallback) is carried by
its outcome: the extracted string, or `none` when both sources are missing
(the `RuntimeError("Error parsing dedup_key")` path). -/
structure RawMediaItem where
  d1 : String
  d2_3 : Option String
  d2_4 : String
  dedup_key : Option String
  d2_5 : List Int
  d5_1 : Int
  d2_1_1 : String
  d2_10 : Int
  d2_8 : Option Int
  d2_7 : Int
  d2_9 : Int
  d2_11 : Int
  d2_35_2 : Int
  d2_30_1 : Int
  d2_26 : Int
  d2_16_3 : Option Int
  d2_29_1 : Int
  d2_31_1 : Int
  d2_39_1 : Int
  d2_35_3 : Int
deriving DecidableEq, Repr

/-- A raw deletion entry: the discriminant `d["1"]["1"]` and the media-key
path `d["1"]["2"]["1"]` read only when the discriminant is `1` (`none`
models that path being absent, a `KeyError` in the Python). -/
structure RawDeletionItem where
  d1_1 : Int
  d1_2_1 : Option String
deriving DecidableEq, Repr

/-- A raw delta-page response as read by `parse_db_update`:
`data["1"].get("1", "")` (next page token), `data["1"].get("6", "")`
(state token), the media-item list under `"2"` and the deletion list under
`"9"` (the single-dict form normalised by `_get_items_list` is absorbed by
the list). -/
structure RawResponse where
  d1_1 : Option String
  d1_6 : Option String
  d1_2 : List RawMediaItem
  d1_9 : List RawDeletionItem
deriving DecidableEq, Repr

/-- `origin_map = {1: "self", 3: "partner", 4: "shared"}`; any other code
raises `KeyError` in `_parse_media_item`. -/
def origin_map (code : Int) : Except String String :=
  if code = 1 then .ok "self"
  else if code = 3 then .ok "partner"
  else if code = 4 then .ok "shared"
  else .error "KeyError: origin_map"

/-- `_parse_media_item`: build a `MediaItem` from a raw entry, failing
exactly where the Python raises (missing dedup key, unknown origin code).
`caption` reproduces `next((...), "") or None`; `is_canonical` is
`not any(prop.get("1") == 27 ...)`; the flag fields compare codes to their
expected values; `timezone_offset` and `trash_timestamp` reproduce the
`.get(..., 0)` defaults. -/
def parse_media_item (d : RawMediaItem) : Except String MediaItem := do
  let dedup ← match d.dedup_key with
    | some k => pure k
    | none => .error "RuntimeError: Error parsing dedup_key"
  let origin ← origin_map d.d2_30_1
  return { media_key := d.d1
           caption := match d.d2_3.getD "" with
             | "" => none
             | s => some s
           file_name := d.d2_4
           dedup_key := dedup
           is_canonical := !(d.d2_5.any (fun p => p == 27))
           type := d.d5_1
           collection_id := d.d2_1_1
           size_bytes := d.d2_10
           timezone_offset := some (d.d2_8.getD 0)
           utc_timestamp := d.d2_7
           server_creation_timestamp := d.d2_9
           upload_status := some d.d2_11
           quota_charged_bytes := d.d2_35_2
           origin := origin
           content_version := d.d2_26
           trash_timestamp := some (d.d2_16_3.getD 0)
           is_archived := d.d2_29_1 == 1
           is_favorite := d.d2_31_1 == 1
           is_locked := d.d2_39_1 == 1
           is_original_quality := d.d2_35_3 == 2 }

/-- `_parse_deletion_item`: discriminant `1` yields the media key at
`d["1"]["2"]["1"]` (raising when that path is absent); every other
discriminant yields nothing. -/
def parseDeletionItem (d : RawDeletionItem) : Except String (Option String) :=
  if d.d1_1 = 1 then
    match d.d1_2_1 with
    | some k => .ok (some k)
    | none => .error "KeyError: deletion media key"
  else .ok none

/-- The deletion-list loop of `parse_db_update`:
`if media_key := _parse_deletion_item(d): media_keys_to_delete.append(...)`.
The walrus `if` tests truthiness, so an entry is kept only when its parsed
key is neither `None` nor the empty string; a decode error propagates. -/
def deletionKeys : List RawDeletionItem → Except String (List String)
  | [] => .ok []
  | d :: ds =>
    match parseDeletionItem d with
    | .error e => .error e
    | .ok none => deletionKeys ds
    | .ok (some k) =>
      if k = "" then deletionKeys ds
      else
        match deletionKeys ds with
        | .error e => .error e
        | .ok ks => .ok (k :: ks)

/-- The media-item loop of `parse_db_update` (the generator consumed by
`remote_media.extend`): parse every raw item in order; a decode error
propagates. -/
def parseItems : List RawMediaItem → Except String (List MediaItem)
  | [] => .ok []
  | d :: ds =>
    match parse_media_item d with
    | .error e => .error e
    | .ok it =>
      match parseItems ds with
      | .error e => .error e
      | .ok its => .ok (it :: its)

/-- `parse_db_update`: extract `(state_token, next_page_token, items,
deleted_keys)` from a raw response; any item or deletion decode error
aborts the parse. -/
def parse_db_update (data : RawResponse) :
    Except String (String × String × List MediaItem × List String) := do
  let next_page_token := data.d1_1.getD ""
  let state_token := data.d1_6.getD ""
  let remote_media ← parseItems data.d1_2
  let media_keys_to_delete ← deletionKeys data.d1_9
  return (state_token, next_page_token, remote_media, media_keys_to_delete)

/-! ### Sync engine (`client.py`)

Storage writes are recorded in an event trace so ordering claims can be
stated.  Fetches are supplied by a `FetchEnv`; a `.error ()` result models a
transport failure of the corresponding `api` call.  The Python `while not
shutdown_event.is_set()` loops are modelled with the shutdown event never
set and a fuel argument for termination. -/

/-- One storage write performed while applying delta pages: a cursor write
(`update_state_tokens`, carrying exactly the arguments supplied), an upsert
batch (`update`, carrying the inserted rows) or a delete batch. -/
inductive StoreEv
  | putTokens (state_token page_token : Option String)
  | upsert (rows : List MediaItem)
  | del (keys : List String)
deriving DecidableEq, Repr

/-- How a sync routine ended: normally, with a propagating transport
failure, with a propagating decode failure, or out of fuel. -/
inductive SyncErr
  | transport
  | decode
  | fuel
deriving DecidableEq, Repr

/-- Result of a sync routine: the storage state, the ordered trace of
storage writes it performed, and how it ended. -/
structure SyncOut where
  store : StorageState
  trace : List StoreEv
  err : Option SyncErr
deriving DecidableEq, Repr

/-- Fetch results for the three library calls the sync engine makes:
`get_library_state state_token`, `get_library_page_init page_token` and
`get_library_page page_token state_token`. -/
structure FetchEnv where
  library_state : String → Except Unit RawResponse
  library_page_init : String → Except Unit RawResponse
  library_page : String → String → Except Unit RawResponse

/-- `GPhoto._process_pages`: fetch the page for `page_token` (always with
the cycle's original `state_token`), parse it, write the next page token,
upsert the page's items, delete its keys, and continue while the next page
token is non-empty.  A transport or decode failure ends the loop with the
storage exactly as the already-applied pages left it. -/
def processPages (env : FetchEnv) (user state_token : String) :
    Nat → String → StorageState → SyncOut
  | 0, _, store => ⟨store, [], some .fuel⟩
  | fuel + 1, page_token, store =>
    match env.library_page page_token state_token with
    | .error _ => ⟨store, [], some .transport⟩
    | .ok resp =>
      match parse_db_update resp with
      | .error _ => ⟨store, [], some .decode⟩
      | .ok (_, next_pt, items, dels) =>
        let s1 := updateStateTokens user none (some next_pt) store
        let s2 := storageUpdate user items s1
        let s3 := storageDelete dels s2
        let blk : List StoreEv :=
          [.putTokens none (some next_pt),
           .upsert (items.map (toRow user)), .del dels]
        if next_pt = "" then ⟨s3, blk, none⟩
        else
          let r := processPages env user state_token fuel next_pt s3
          ⟨r.store, blk ++ r.trace, r.err⟩

/-- `GPhoto._process_pages_init`: as `processPages` but fetching through
`get_library_page_init`, which takes no state token. -/
def processPagesInit (env : FetchEnv) (user : String) :
    Nat → String → StorageState → SyncOut
  | 0, _, store => ⟨store, [], some .fuel⟩
  | fuel + 1, page_token, store =>
    match env.library_page_init page_token with
    | .error _ => ⟨store, [], some .transport⟩
    | .ok resp =>
      match parse_db_update resp with
      | .error _ => ⟨store, [], some .decode⟩
      | .ok (_, next_pt, items, dels) =>
        let s1 := updateStateTokens user none (some next_pt) store
        let s2 := storageUpdate user items s1
        let s3 := storageDelete dels s2
        let blk : List StoreEv :=
          [.putTokens none (some next_pt),
           .upsert (items.map (toRow user)), .del dels]
        if next_pt = "" then ⟨s3, blk, none⟩
        else
          let r := processPagesInit env user fuel next_pt s3
          ⟨r.store, blk ++ r.trace, r.err⟩

/-- `GPhoto._cache_update`: read the stored state token, fetch the
top-level library state (a transport failure there propagates), then under
`try/except Exception: pass`: parse, write both tokens, upsert, delete,
and page through a non-empty next page token.  Parse and paging failures
are swallowed by the `except`, so the routine itself reports no error for
them. -/
def cacheUpdate (env : FetchEnv) (user : String) (fuel : Nat)
    (store : StorageState) : SyncOut :=
  let st := (getStateTokens user store).1
  match env.library_state st with
  | .error _ => ⟨store, [], some .transport⟩
  | .ok resp =>
    match parse_db_update resp with
    | .error _ => ⟨store, [], none⟩
    | .ok (next_st, next_pt, items, dels) =>
      let s1 := updateStateTokens user (some next_st) (some next_pt) store
      let s2 := storageUpdate user items s1
      let s3 := storageDelete dels s2
      let blk : List StoreEv :=
        [.putTokens (some next_st) (some next_pt),
         .upsert (items.map (toRow user)), .del dels]
      if next_pt = "" then ⟨s3, blk, none⟩
      else
        let r := processPages env user st fuel next_pt s3
        ⟨r.store, blk ++ r.trace, none⟩

/-- `GPhoto._cache_init`: read the stored tokens; when a page token is
left over from an interrupted run, resume paging from it first.  Then
fetch top-level state, parse it (`_cache_init` has no `try`, so fetch,
parse and paging failures all propagate), write both returned tokens,
upsert the returned items — the returned deletions are dropped by the
`_` in the unpacking — and page through a non-empty returned page token. -/
def cacheInit (env : FetchEnv) (user : String) (fuel : Nat)
    (store : StorageState) : SyncOut :=
  let (st, pt) := getStateTokens user store
  let r0 : SyncOut :=
    if pt = "" then ⟨store, [], none⟩
    else processPagesInit env user fuel pt store
  match r0.err with
  | some e => ⟨r0.store, r0.trace, some e⟩
  | none =>
    match env.library_state st with
    | .error _ => ⟨r0.store, r0.trace, some .transport⟩
    | .ok resp =>
      match parse_db_update resp with
      | .error _ => ⟨r0.store, r0.trace, some .decode⟩
      | .ok (next_st, next_pt, items, _dels) =>
        let s1 := updateStateTokens user (some next_st) (some next_pt) r0.store
        let s2 := storageUpdate user items s1
        let blk : List StoreEv :=
          [.putTokens (some next_st) (some next_pt),
           .upsert (items.map (toRow user))]
        if next_pt = "" then ⟨s2, r0.trace ++ blk, none⟩
        else
          let r := processPagesInit env user fuel next_pt s2
          ⟨r.store, r0.trace ++ blk ++ r.trace, r.err⟩

/-- `GPhoto.update_cache`: read `init_complete` (creating the default
state row on first contact); when initialisation is incomplete run
`_cache_init` and then set `init_complete`; finally always run
`_cache_update`. -/
def updateCache (env : FetchEnv) (user : String) (fuel : Nat)
    (store : StorageState) : SyncOut :=
  let (initDone, s0) := getInitState user store
  if initDone then cacheUpdate env user fuel s0
  else
    let r1 := cacheInit env user fuel s0
    match r1.err with
    | some e => ⟨r1.store, r1.trace, some e⟩
    | none =>
      let s2 := setInitState user true r1.store
      let r2 := cacheUpdate env user fuel s2
      ⟨r2.store, r1.trace ++ r2.trace, r2.err⟩

/-- The shape the cursor-write ordering claims are about: a trace made of
complete page blocks, each a cursor write immediately followed by the same
page's upsert batch and delete batch. -/
inductive IsPageBlocks : List StoreEv → Prop
  | nil : IsPageBlocks []
  | block (pt : Option String) (rows : List MediaItem) (keys : List String)
      (rest : List StoreEv) (h : IsPageBlocks rest) :
      IsPageBlocks (.putTokens none pt :: .upsert rows :: .del keys :: rest)

/-! ### Authenticated request wrapper (`api.Api._request`)

The wrapper is driven by the statuses the transport returns: `env i` is the
status of the `i`-th HTTP attempt of this call.  Token state is summarised
by the count of forced refreshes (`get_auth_token(force=True)`); the
fixed-delay retries are counted by `sleeps`.  The Python `while retry < 5`
loop does not increment `retry` on 401/403, so it can run unboundedly;
`fuel` makes that explicit (`none` = the loop is still running). -/

/-- Outcome of `_request`: the returned status, how many HTTP attempts the
call made, how many forced token refreshes and how many fixed-delay sleeps
happened. -/
structure ReqResult where
  status : Nat
  attempts : Nat
  refreshes : Nat
  sleeps : Nat
deriving DecidableEq, Repr

/-- The `while retry < 5` loop of `_request`.  `i` is the index of the next
attempt, `last` the status of the previous attempt (returned when the
retry budget is exhausted, mirroring `return response` after the loop).
A 200 or any status outside {401, 403, 500, 503} is returned at once;
401/403 forces a refresh and retries without touching `retry`; 500/503
sleeps and increments `retry`. -/
def requestRun (env : Nat → Nat) :
    Nat → Nat → Nat → Nat → Nat → Nat → Option ReqResult
  | 0, _, _, _, _, _ => none
  | fuel + 1, retry, i, refr, slp, last =>
    if retry < 5 then
      let st := env i
      if st = 200 then some ⟨st, i + 1, refr, slp⟩
      else if st = 401 ∨ st = 403 then
        requestRun env fuel retry (i + 1) (refr + 1) slp st
      else if st = 500 ∨ st = 503 then
        requestRun env fuel (retry + 1) (i + 1) refr (slp + 1) st
      else some ⟨st, i + 1, refr, slp⟩
    else some ⟨last, i, refr, slp⟩

/-- `Api._request` from a fresh call (the held token is attached; its
initial acquisition when absent happens once before the first attempt and
is not a forced refresh, so it is not counted here). -/
def apiRequest (env : Nat → Nat) (fuel : Nat) : Option ReqResult :=
  requestRun env fuel 0 0 0 0 0

/-! ### Upload pipeline step (`client.GPhoto._upload_file`)

Each remote operation of one candidate is driven by a script: the list of
statuses its successive HTTP attempts would return (status of attempt `i`
is `script.getD i 200`).  `find_remote_media_by_hash`, `get_upload_token`
and `commit_upload` issue their request through `Api._request`;
`Api.upload_file` issues a single `httpclient.put` directly. -/

/-- Net effect of one gateway operation: whether `raise_for_status`
passed, and the refresh/attempt counts of the call. -/
structure CallOutcome where
  ok : Bool
  refreshes : Nat
  attempts : Nat
deriving DecidableEq, Repr

/-- An operation routed through `Api._request` followed by
`response.raise_for_status()`. -/
def gatewayCall (script : List Nat) : CallOutcome :=
  match apiRequest (fun i => script.getD i 200) (script.length + 6) with
  | some r => ⟨r.status == 200, r.refreshes, r.attempts⟩
  | none => ⟨false, 0, 0⟩

/-- `Api.upload_file`: one direct `httpclient.put` followed by
`raise_for_status` — no `_request`, no retry, no refresh. -/
def directPut (script : List Nat) : CallOutcome :=
  ⟨script.getD 0 200 == 200, 0, 1⟩

/-- The remote behaviour one upload candidate observes: the status scripts
of its four operations, what the dedup lookup's body decodes to
(`none`/empty string are falsy in the `if remote_media_key :=` walrus),
and the media key a successful commit returns. -/
structure UploadEnv where
  path : String
  findByHash : List Nat
  remoteKey : Option String
  uploadToken : List Nat
  uploadStream : List Nat
  commit : List Nat
  newKey : String

/-- Net effect of `_upload_file` on one candidate: the `(path, mediaKey)`
pair it returns (`none` when the surrounding `except` caught a failure and
moved the file to the error directory), total forced token refreshes, and
how many upload-token requests and byte-stream upload attempts were
made. -/
structure UploadRun where
  result : Option (String × String)
  refreshes : Nat
  tokenCalls : Nat
  streamCalls : Nat
deriving DecidableEq, Repr

/-- `GPhoto._upload_file` after hashing: dedup lookup; on a truthy found
key, return `(path, remote key)` without further calls; otherwise request
an upload token, stream the bytes with a single unretried `put`, and
commit.  Any failed call raises, is caught by the catch-all `except`, and
the candidate yields no result. -/
def uploadFileStep (e : UploadEnv) : UploadRun :=
  let dedup := gatewayCall e.findByHash
  if !dedup.ok then ⟨none, dedup.refreshes, 0, 0⟩
  else
    match e.remoteKey with
    | some k =>
      if k ≠ "" then ⟨some (e.path, k), dedup.refreshes, 0, 0⟩
      else
        let tok := gatewayCall e.uploadToken
        if !tok.ok then ⟨none, dedup.refreshes + tok.refreshes, 1, 0⟩
        else
          let up := directPut e.uploadStream
          if !up.ok then ⟨none, dedup.refreshes + tok.refreshes, 1, 1⟩
          else
            let com := gatewayCall e.commit
            if !com.ok then
              ⟨none, dedup.refreshes + tok.refreshes + com.refreshes, 1, 1⟩
            else
              ⟨some (e.path, e.newKey),
               dedup.refreshes + tok.refreshes + com.refreshes, 1, 1⟩
    | none =>
      let tok := gatewayCall e.uploadToken
      if !tok.ok then ⟨none, dedup.refreshes + tok.refreshes, 1, 0⟩
      else
        let up := directPut e.uploadStream
        if !up.ok then ⟨none, dedup.refreshes + tok.refreshes, 1, 1⟩
        else
          let com := gatewayCall e.commit
          if !com.ok then
            ⟨none, dedup.refreshes + tok.refreshes + com.refreshes, 1, 1⟩
          else
            ⟨some (e.path, e.newKey),
             dedup.refreshes + tok.refreshes + com.refreshes, 1, 1⟩

/-! ### Duplicate listing (`db.AsyncStorage.get_duplicate_files_by_name_and_size`)

The SQL ranks the rows of `remote_media` by `ROW_NUMBER() OVER (PARTITION
BY file_name, size_bytes ORDER BY media_key)` and returns the `dedup_key`
of every row ranked above 1, ordered by `(file_name, size_bytes)`.  With
`media_key` unique (it is the primary key) the row number of a row is one
plus the number of rows of its partition with a smaller `media_key`; the
`WHERE dedup_key IS NOT NULL` guard is vacuous here because `dedup_key` is
a non-optional string on every row the client inserts. -/

/-- The `(file_name, size_bytes)` ordering of the final `ORDER BY`. -/
def fsLe (a b : MediaItem) : Bool :=
  if a.file_name = b.file_name then a.size_bytes ≤ b.size_bytes
  else decide (a.file_name < b.file_name)

def insertFS (r : MediaItem) : List MediaItem → List MediaItem
  | [] => [r]
  | x :: xs => if fsLe r x then r :: x :: xs else x :: insertFS r xs

/-- Insertion sort by `(file_name, size_bytes)` — a deterministic
realisation of the `ORDER BY file_name, size_bytes` of the query. -/
def sortFS (l : List MediaItem) : List MediaItem := l.foldr insertFS []

/-- `ROW_NUMBER() OVER (PARTITION BY file_name, size_bytes ORDER BY
media_key)` for row `r`, for tables with unique media keys. -/
def rankIn (rows : List MediaItem) (r : MediaItem) : Nat :=
  1 + (rows.filter (fun x =>
    x.file_name == r.file_name && x.size_bytes == r.size_bytes &&
      decide (x.media_key < r.media_key))).length

/-- `get_duplicate_files_by_name_and_size`: dedup keys of every row ranked
above 1 in its `(file_name, size_bytes)` partition, ordered by partition
key. -/
def get_duplicate_files_by_name_and_size (rows : List MediaItem) :
    List String :=
  (sortFS (rows.filter (fun r => decide (1 < rankIn rows r)))).map
    (fun r => r.dedup_key)

/-- Modelled from the spec's words for `listDuplicateDedupKeys()`: group
by `(fileName, sizeBytes)` and return, per group with more than one
record, the dedup keys of all records except the first in `mediaKey`
order.  With unique media keys, a record is selected exactly when some
record of its group has a smaller `mediaKey`. -/
def listDuplicateDedupKeys_spec (rows : List MediaItem) : List String :=
  (rows.filter (fun r => rows.any (fun x =>
    x.file_name == r.file_name && x.size_bytes == r.size_bytes &&
      decide (x.media_key < r.media_key)))).map
    (fun r => r.dedup_key)

/-! ### `db.AsyncStorage.update_parsed_name` and the table schema

`_create_tables` fixes the columns of `remote_media`; an `UPDATE` whose
`SET` target is not among them is rejected by PostgreSQL (undefined
column) before any row is touched. -/

/-- The columns of `remote_media` exactly as listed in
`AsyncStorage._create_tables`. -/
def remote_media_columns : List String :=
  ["media_key", "file_name", "dedup_key", "is_canonical", "type",
   "caption", "collection_id", "size_bytes", "quota_charged_bytes",
   "origin", "content_version", "utc_timestamp",
   "server_creation_timestamp", "timezone_offset", "width", "height",
   "remote_url", "upload_status", "trash_timestamp", "is_archived",
   "is_favorite", "is_locked", "is_original_quality", "latitude",
   "longitude", "location_name", "location_id", "is_edited", "make",
   "model", "aperture", "shutter_speed", "iso", "focal_length",
   "duration", "capture_frame_rate", "encoded_frame_rate",
   "is_micro_video", "micro_video_width", "micro_video_height",
   "user_name", "name", "path"]

/-- `AsyncStorage.update_parsed_name`: executes
`UPDATE remote_media SET parsed_name = $1 WHERE media_key = $2` and
reports whether the status tag ends in `UPDATE 1`.  The database validates
the `SET` column against the schema first, so the row-matching branch is
reachable only if `parsed_name` were a column of the table. -/
def update_parsed_name (media_key newName : String) (s : StorageState) :
    Except String (Bool × StorageState) :=
  if remote_media_columns.contains "parsed_name" then
    .ok ((getByMediaKey media_key s).isSome, s)
  else
    .error "UndefinedColumn: parsed_name"

/-! ## Claims -/

/-- Claim C10.  The claim says `updateParsedName(mediaKey, newName)`
returns true exactly when a record with that `mediaKey` exists, updates
only that record's `parsedName`, and makes it findable by
`findByParsedName`.  The code cannot do any of this: `_create_tables`
gives `remote_media` no `parsed_name` column, so the
`UPDATE remote_media SET parsed_name = ...` statement is rejected by the
database (undefined column) for every input — the call raises instead of
returning a boolean. -/
theorem update_parsed_name_always_undefined_column :
    "parsed_name" ∉ remote_media_columns ∧
      ∀ (mk nn : String) (s : StorageState),
        update_parsed_name mk nn s = .error "UndefinedColumn: parsed_name" := by
  have hmem : "parsed_name" ∉ remote_media_columns := by decide
  exact ⟨hmem, fun mk nn s => by simp [update_parsed_name, hmem]⟩

/-- Counterexample to claim C8's "decoding yields the entry's mediaKey
and that key is added to the page's deletion list": a discriminant-1
entry whose key decodes to the empty string decodes fine, yet the walrus
`if media_key := ...` finds `""` falsy and skips it — nothing is added. -/
theorem empty_deletion_key_skipped_counterexample :
    parseDeletionItem ⟨1, some ""⟩ = .ok (some "") ∧
      deletionKeys [⟨1, some ""⟩] = .ok [] := ⟨rfl, rfl⟩

/-- Claim C8, amended.  A deletion entry with discriminant `1` whose
decoded media key is non-empty contributes exactly that key to the
page's deletion list; a discriminant-1 entry decoding to the empty
string is skipped (falsy under the loop's walrus test, see the
counterexample); every other discriminant contributes nothing and
raises no error. -/
theorem deletion_discriminant_handling_amended :
    ∀ ds : List RawDeletionItem,
      ((∀ d ∈ ds, d.d1_1 = 1 → d.d1_2_1.getD "" ≠ "") →
        deletionKeys ds = .ok (ds.filterMap (fun d =>
          if d.d1_1 = 1 then d.d1_2_1 else none)))
      ∧ (∀ d : RawDeletionItem, d.d1_1 = 1 → d.d1_2_1 = some "" →
          deletionKeys (d :: ds) = deletionKeys ds)
      ∧ ∀ d : RawDeletionItem, d.d1_1 ≠ 1 →
          parseDeletionItem d = .ok none ∧
          deletionKeys (d :: ds) = deletionKeys ds := by
  intro ds
  refine ⟨?_, ?_, ?_⟩
  · intro hwf
    induction ds with
    | nil => simp [deletionKeys]
    | cons d ds ih =>
      have hds := ih (fun x hx => hwf x (List.mem_cons_of_mem d hx))
      by_cases h1 : d.d1_1 = 1
      · have hne := hwf d (List.mem_cons_self d ds) h1
        cases hk : d.d1_2_1 with
        | none =>
          rw [hk] at hne
          exact absurd rfl hne
        | some k =>
          rw [hk] at hne
          simp only [Option.getD_some] at hne
          simp [deletionKeys, parseDeletionItem, h1, hk, hne, hds,
            List.filterMap_cons]
      · simp [deletionKeys, parseDeletionItem, h1, hds,
          List.filterMap_cons]
  · intro d h1 h2
    simp [deletionKeys, parseDeletionItem, h1, h2]
  · intro d h1
    constructor
    · simp [parseDeletionItem, h1]
    · simp [deletionKeys, parseDeletionItem, h1]

/-- Witness for C8's amended behaviour: a kept key, a skipped empty key,
and an ignored unknown discriminant. -/
theorem deletion_discriminant_handling_amended_witness :
    deletionKeys [⟨1, some "k1"⟩, ⟨4, some "zz"⟩, ⟨0, none⟩] =
      .ok ["k1"] ∧
    deletionKeys [⟨1, some ""⟩, ⟨1, some "k2"⟩] =
      deletionKeys [⟨1, some "k2"⟩] ∧
    (parseDeletionItem ⟨4, some "zz"⟩ = .ok none ∧
      deletionKeys [⟨4, some "zz"⟩, ⟨1, some "k3"⟩] =
        deletionKeys [⟨1, some "k3"⟩]) :=
  ⟨by
    have h := (deletion_discriminant_handling_amended
      [⟨1, some "k1"⟩, ⟨4, some "zz"⟩, ⟨0, none⟩]).1 (by decide)
    simpa using h,
   (deletion_discriminant_handling_amended
      [⟨1, some "k2"⟩]).2.1 ⟨1, some ""⟩ rfl rfl,
   (deletion_discriminant_handling_amended
      [⟨1, some "k3"⟩]).2.2 ⟨4, some "zz"⟩ (by decide)⟩

/-! ### Mirror-store algebra (claim C7) -/

/-- `SELECT`-by-primary-key over a bare row list. -/
def findRow (k : String) (l : List MediaItem) : Option MediaItem :=
  l.find? (fun r => r.media_key == k)

/-- Applying one parsed delta page to the mirror, exactly as every page
application site of `client.py` does it: the page's upserts, then its
deletes (`storage.update` then `storage.delete`). -/
def applyPage (user : String) (items : List MediaItem) (dels : List String)
    (s : StorageState) : StorageState :=
  storageDelete dels (storageUpdate user items s)

theorem find_replaceMap_ne (k : String) (r : MediaItem) (l : List MediaItem)
    (hk : r.media_key ≠ k) :
    List.find? (fun x => x.media_key == k)
        (l.map fun x => if x.media_key == r.media_key then r else x) =
      List.find? (fun x => x.media_key == k) l := by
  induction l with
  | nil => rfl
  | cons x xs ih =>
    rw [List.map_cons]
    by_cases hx : x.media_key = r.media_key
    · have h1 : (x.media_key == r.media_key) = true := beq_iff_eq.mpr hx
      have h2 : (x.media_key == k) = false := by
        rw [beq_eq_false_iff_ne, hx]
        exact hk
      have h3 : (r.media_key == k) = false := beq_eq_false_iff_ne.mpr hk
      have hhead : (if x.media_key == r.media_key then r else x) = r := by
        rw [h1]
        rfl
      rw [hhead, List.find?_cons, List.find?_cons, h2, h3]
      exact ih
    · have h1 : (x.media_key == r.media_key) = false :=
        beq_eq_false_iff_ne.mpr hx
      have hhead : (if x.media_key == r.media_key then r else x) = x := by
        rw [h1]
        rfl
      rw [hhead, List.find?_cons, List.find?_cons]
      by_cases hxk : x.media_key = k
      · rw [beq_iff_eq.mpr hxk]
      · rw [beq_eq_false_iff_ne.mpr hxk]
        exact ih

theorem find_replaceMap_self (r : MediaItem) (l : List MediaItem)
    (hany : (l.any fun x => x.media_key == r.media_key) = true) :
    List.find? (fun x => x.media_key == r.media_key)
        (l.map fun x => if x.media_key == r.media_key then r else x) =
      some r := by
  induction l with
  | nil => simp at hany
  | cons x xs ih =>
    rw [List.map_cons]
    by_cases hx : x.media_key = r.media_key
    · have h1 : (x.media_key == r.media_key) = true := beq_iff_eq.mpr hx
      have hhead : (if x.media_key == r.media_key then r else x) = r := by
        rw [h1]
        rfl
      have h2 : (r.media_key == r.media_key) = true := beq_iff_eq.mpr rfl
      rw [hhead, List.find?_cons, h2]
    · have h1 : (x.media_key == r.media_key) = false :=
        beq_eq_false_iff_ne.mpr hx
      have hhead : (if x.media_key == r.media_key then r else x) = x := by
        rw [h1]
        rfl
      have htail : (xs.any fun y => y.media_key == r.media_key) = true := by
        rcases List.any_eq_true.mp hany with ⟨y, hy, hyp⟩
        rcases List.mem_cons.mp hy with hy1 | hy2
        · subst hy1
          rw [h1] at hyp
          exact absurd hyp (by simp)
        · exact List.any_eq_true.mpr ⟨y, hy2, hyp⟩
      rw [hhead, List.find?_cons, h1]
      exact ih htail

/-- Behaviour of a single upsert on primary-key lookup: the upserted key
now maps to the new row, every other key is untouched. -/
theorem findRow_upsertOne (k : String) (r : MediaItem) (l : List MediaItem) :
    findRow k (upsertOne r l) =
      if r.media_key = k then some r else findRow k l := by
  unfold findRow upsertOne
  by_cases hany : (l.any fun x => x.media_key == r.media_key) = true
  · rw [if_pos hany]
    by_cases hk : r.media_key = k
    · subst hk
      rw [if_pos rfl]
      exact find_replaceMap_self r l hany
    · rw [if_neg hk]
      exact find_replaceMap_ne k r l hk
  · rw [if_neg hany, List.find?_append]
    by_cases hk : r.media_key = k
    · subst hk
      have hnone : l.find? (fun x => x.media_key == r.media_key) = none :=
        List.find?_eq_none.mpr fun x hx hc =>
          hany (List.any_eq_true.mpr ⟨x, hx, hc⟩)
      rw [hnone, if_pos rfl]
      simp [List.find?_cons]
    · have h2 : (r.media_key == k) = false := beq_eq_false_iff_ne.mpr hk
      rw [if_neg hk]
      simp [List.find?_cons, h2]

/-- The key-`k` row an upsert batch leaves behind, threaded like the batch
itself: the last item of the batch with key `k` (as a stored row), else the
accumulator. -/
def itemValAux (user k : String) (items : List MediaItem)
    (acc : Option MediaItem) : Option MediaItem :=
  items.foldl
    (fun a it => if it.media_key == k then some (toRow user it) else a) acc

theorem itemValAux_or (user k : String) (items : List MediaItem)
    (acc : Option MediaItem) :
    itemValAux user k items acc = (itemValAux user k items none).or acc := by
  induction items generalizing acc with
  | nil => simp [itemValAux]
  | cons it its ih =>
    by_cases h : (it.media_key == k) = true
    · show itemValAux user k its (if it.media_key == k then _ else _) =
        (itemValAux user k its (if it.media_key == k then _ else _)).or acc
      rw [h]
      simp only [if_true]
      rw [ih]
      cases itemValAux user k its none with
      | none => rfl
      | some v => rfl
    · have h' : (it.media_key == k) = false := by
        cases hb : it.media_key == k
        · rfl
        · exact absurd hb h
      show itemValAux user k its (if it.media_key == k then _ else _) =
        (itemValAux user k its (if it.media_key == k then _ else _)).or acc
      rw [h']
      simp only [Bool.false_eq_true, if_false]
      exact ih acc

theorem itemValAux_idem (user k : String) (items : List MediaItem)
    (acc : Option MediaItem) :
    itemValAux user k items (itemValAux user k items acc) =
      itemValAux user k items acc := by
  rw [itemValAux_or, itemValAux_or user k items acc]
  cases itemValAux user k items none with
  | none => rfl
  | some v => rfl

/-- Primary-key lookup after an upsert batch: the last batch item with
that key wins, otherwise the previous row survives. -/
theorem findRow_storageUpdateRows (user k : String) (items : List MediaItem)
    (l : List MediaItem) :
    findRow k (storageUpdateRows user items l) =
      itemValAux user k items (findRow k l) := by
  induction items generalizing l with
  | nil => rfl
  | cons it its ih =>
    show findRow k (storageUpdateRows user its (upsertOne (toRow user it) l)) =
      itemValAux user k its (if it.media_key == k then _ else _)
    rw [ih, findRow_upsertOne]
    by_cases h : it.media_key = k
    · have hb : (it.media_key == k) = true := beq_iff_eq.mpr h
      rw [hb]
      have : (toRow user it).media_key = it.media_key := rfl
      rw [this, if_pos h]
      simp only [if_true]
    · have hb : (it.media_key == k) = false := beq_eq_false_iff_ne.mpr h
      rw [hb]
      have : (toRow user it).media_key = it.media_key := rfl
      rw [this, if_neg h]
      simp only [Bool.false_eq_true, if_false]

/-- Primary-key lookup after a delete batch. -/
theorem findRow_storageDeleteRows (k : String) (keys : List String)
    (l : List MediaItem) :
    findRow k (storageDeleteRows keys l) =
      if keys.contains k then none else findRow k l := by
  unfold storageDeleteRows findRow
  induction l with
  | nil =>
    cases h : keys.contains k
    · simp [h]
    · simp [h]
  | cons x xs ih =>
    rw [List.filter_cons]
    by_cases hxk : x.media_key = k
    · subst hxk
      cases hc : keys.contains x.media_key
      · have hb : (x.media_key == x.media_key) = true := beq_iff_eq.mpr rfl
        simp only [hc, Bool.not_false, if_pos, List.find?_cons, hb,
          Bool.false_eq_true, if_false]
      · have hb : (x.media_key == x.media_key) = true := beq_iff_eq.mpr rfl
        simp only [hc, Bool.not_true, Bool.false_eq_true, if_false, ih,
          if_true]
    · have hb : (x.media_key == k) = false := beq_eq_false_iff_ne.mpr hxk
      cases hc : keys.contains x.media_key
      · simp only [hc, Bool.not_false, if_pos, List.find?_cons, hb,
          Bool.false_eq_true, if_false, ih]
      · simp only [hc, Bool.not_true, Bool.false_eq_true, if_false, ih,
          List.find?_cons, hb]

/-- A second upsert of the same row is invisible, even at the level of the
row list itself. -/
theorem upsertOne_idem (r : MediaItem) (l : List MediaItem) :
    upsertOne r (upsertOne r l) = upsertOne r l := by
  unfold upsertOne
  by_cases hany : (l.any fun x => x.media_key == r.media_key) = true
  · rw [if_pos hany]
    have hany2 : ((l.map fun x => if x.media_key == r.media_key then r
        else x).any fun x => x.media_key == r.media_key) = true := by
      rcases List.any_eq_true.mp hany with ⟨x, hx, hp⟩
      refine List.any_eq_true.mpr ⟨r, ?_, beq_iff_eq.mpr rfl⟩
      refine List.mem_map.mpr ⟨x, hx, ?_⟩
      rw [hp]
      rfl
    rw [if_pos hany2, List.map_map]
    refine List.map_congr_left fun x _ => ?_
    by_cases h : (x.media_key == r.media_key) = true
    · simp [Function.comp, h]
    · have h' : (x.media_key == r.media_key) = false := by
        cases hb : x.media_key == r.media_key
        · rfl
        · exact absurd hb h
      simp [Function.comp, h']
  · rw [if_neg hany]
    have hany2 : ((l ++ [r]).any fun x => x.media_key == r.media_key) = true :=
      List.any_eq_true.mpr ⟨r, by simp, beq_iff_eq.mpr rfl⟩
    rw [if_pos hany2, List.map_append]
    have h1 : (l.map fun x => if x.media_key == r.media_key then r else x) =
        l := by
      have := List.map_congr_left (l := l)
        (f := fun x : MediaItem =>
          if x.media_key == r.media_key then r else x) (g := id) ?_
      · rw [this, List.map_id]
      · intro x hx
        have h' : (x.media_key == r.media_key) = false := by
          cases hb : x.media_key == r.media_key
          · rfl
          · exact absurd (List.any_eq_true.mpr ⟨x, hx, hb⟩) hany
        simp [h']
    have h2 : ([r].map fun x => if x.media_key == r.media_key then r
        else x) = [r] := by
      have hb : (r.media_key == r.media_key) = true := beq_iff_eq.mpr rfl
      rw [List.map_cons, List.map_nil, hb]
      rfl
    rw [h1, h2]

/-- A sample record for concrete witnesses (remaining fields at their
dataclass defaults). -/
def sampleItem (key fname dedup : String) (size : Int) : MediaItem :=
  { media_key := key, file_name := fname, dedup_key := dedup,
    is_canonical := true, type := 1, caption := none, collection_id := "c",
    size_bytes := size, quota_charged_bytes := 0, origin := "self",
    content_version := 1, utc_timestamp := 0,
    server_creation_timestamp := 0 }

/-- Claim C7.  The mirror store's upsert is idempotent and total (it is a
function defined on every input, so no error is possible): upserting the
same record twice leaves the very row list a single upsert leaves.
Deleting an absent media key leaves the store untouched (and raises
nothing).  Consequently applying the same delta page — its upserts, then
its deletes, as every page-application site orders them — twice leaves
the same mirror contents as applying it once, where the contents of the
relational table are compared by primary-key lookup (a table carries no
row order). -/
theorem mirror_upsert_delete_page_idempotent :
    ∀ (user k : String) (r : MediaItem) (items : List MediaItem)
      (dels : List String) (s : StorageState),
      storageUpdate user [r] (storageUpdate user [r] s) =
        storageUpdate user [r] s ∧
      (getByMediaKey k s = none → storageDelete [k] s = s) ∧
      getByMediaKey k
          (applyPage user items dels (applyPage user items dels s)) =
        getByMediaKey k (applyPage user items dels s) := by
  intro user k r items dels s
  refine ⟨?_, ?_, ?_⟩
  · show StorageState.mk
      (upsertOne (toRow user r) (upsertOne (toRow user r) s.remote_media))
      s.state = StorageState.mk (upsertOne (toRow user r) s.remote_media)
      s.state
    rw [upsertOne_idem]
  · intro h
    have hall : ∀ x ∈ s.remote_media, (!([k].contains x.media_key)) = true := by
      intro x hx
      have hne := List.find?_eq_none.mp h x hx
      have : (x.media_key == k) = false := by
        cases hb : x.media_key == k
        · rfl
        · exact absurd hb hne
      have hne' : ¬x.media_key = k := beq_eq_false_iff_ne.mp this
      simp [List.contains, this, hne']
    show StorageState.mk
      (s.remote_media.filter fun x => !([k].contains x.media_key)) s.state =
        s
    rw [List.filter_eq_self.mpr hall]
  · show findRow k (storageDeleteRows dels (storageUpdateRows user items
      (storageDeleteRows dels (storageUpdateRows user items
        s.remote_media)))) =
      findRow k (storageDeleteRows dels (storageUpdateRows user items
        s.remote_media))
    rw [findRow_storageDeleteRows, findRow_storageUpdateRows,
      findRow_storageDeleteRows, findRow_storageUpdateRows]
    cases hc : dels.contains k
    · simp only [Bool.false_eq_true, if_false]
      exact itemValAux_idem user k items (findRow k s.remote_media)
    · simp only [if_true]

/-- Witness for C7 at concrete inputs: one record upserted twice, the
delete of an absent key `"nope"`, and a page `([b], ["a"])` applied twice
to a one-row store. -/
theorem mirror_upsert_delete_page_idempotent_witness :
    (storageUpdate "u" [sampleItem "a" "f" "d" 1]
        (storageUpdate "u" [sampleItem "a" "f" "d" 1]
          ⟨[sampleItem "c" "g" "e" 2], []⟩) =
      storageUpdate "u" [sampleItem "a" "f" "d" 1]
        ⟨[sampleItem "c" "g" "e" 2], []⟩) ∧
    (storageDelete ["nope"] ⟨[sampleItem "c" "g" "e" 2], []⟩ =
      ⟨[sampleItem "c" "g" "e" 2], []⟩) ∧
    getByMediaKey "nope"
        (applyPage "u" [sampleItem "b" "f" "d" 1] ["a"]
          (applyPage "u" [sampleItem "b" "f" "d" 1] ["a"]
            ⟨[sampleItem "c" "g" "e" 2], []⟩)) =
      getByMediaKey "nope"
        (applyPage "u" [sampleItem "b" "f" "d" 1] ["a"]
          ⟨[sampleItem "c" "g" "e" 2], []⟩) := by
  have h := mirror_upsert_delete_page_idempotent "u" "nope"
    (sampleItem "a" "f" "d" 1) [sampleItem "b" "f" "d" 1] ["a"]
    ⟨[sampleItem "c" "g" "e" 2], []⟩
  exact ⟨h.1, h.2.1 (by decide), h.2.2⟩

/-- Reaching `some` from `requestRun` can accumulate at most `5 - retry`
further fixed-delay sleeps: the 500/503 branch is the only one that
increments `retry`, and the loop stops entering new attempts at
`retry = 5`. -/
theorem requestRun_sleeps_bound (env : Nat → Nat) :
    ∀ (fuel retry i refr slp last : Nat) (res : ReqResult),
      requestRun env fuel retry i refr slp last = some res →
      res.sleeps ≤ slp + (5 - retry) := by
  intro fuel
  induction fuel with
  | zero =>
    intro retry i refr slp last res h
    exact absurd h (by simp [requestRun])
  | succ n ih =>
    intro retry i refr slp last res h
    rw [requestRun] at h
    by_cases hr : retry < 5
    · rw [if_pos hr] at h
      by_cases h200 : env i = 200
      · rw [if_pos h200] at h
        obtain rfl := (Option.some.injEq _ _).mp h
        show slp ≤ slp + (5 - retry)
        omega
      · rw [if_neg h200] at h
        by_cases h4 : env i = 401 ∨ env i = 403
        · rw [if_pos h4] at h
          exact ih retry (i + 1) (refr + 1) slp (env i) res h
        · rw [if_neg h4] at h
          by_cases h5 : env i = 500 ∨ env i = 503
          · rw [if_pos h5] at h
            have hb := ih (retry + 1) (i + 1) refr (slp + 1) (env i) res h
            omega
          · rw [if_neg h5] at h
            obtain rfl := (Option.some.injEq _ _).mp h
            show slp ≤ slp + (5 - retry)
            omega
    · rw [if_neg hr] at h
      obtain rfl := (Option.some.injEq _ _).mp h
      show slp ≤ slp + (5 - retry)
      omega

/-- Counterexample to claim C4's "at most 5 attempts in total across the
whole call": six consecutive 401 responses followed by a 200 make the
wrapper perform 7 HTTP attempts (and 6 forced refreshes) in one call,
because the 401/403 branch retries without touching the `retry` counter. -/
theorem request_total_attempts_counterexample :
    apiRequest (fun i => if i < 6 then 401 else 200) 20 =
      some ⟨200, 7, 6, 0⟩ ∧ 7 > 5 :=
  ⟨by rfl, by omega⟩

/-- Claim C4, amended.  For every call through the request wrapper:
a 401/403 response forces a token refresh and an immediate retry of the
same call with no delay (the sleep counter is untouched); a 500/503
response sleeps once and retries, and such counted attempts are limited —
any returned result carries at most 5 sleeps from a fresh call; once the
budget is exhausted the last response is returned unmodified; any other
non-200 status is returned to the caller unmodified with no further
attempt.  (The original claim's global "at most 5 attempts in total" is
false: 401/403 retries are uncounted and unbounded, see the
counterexample.) -/
theorem request_retry_policy_amended :
    ∀ (env : Nat → Nat) (fuel retry i refr slp last : Nat),
      (retry < 5 → (env i = 401 ∨ env i = 403) →
        requestRun env (fuel + 1) retry i refr slp last =
          requestRun env fuel retry (i + 1) (refr + 1) slp (env i)) ∧
      (retry < 5 → (env i = 500 ∨ env i = 503) →
        requestRun env (fuel + 1) retry i refr slp last =
          requestRun env fuel (retry + 1) (i + 1) refr (slp + 1) (env i)) ∧
      (retry < 5 → env i ≠ 200 → env i ≠ 401 → env i ≠ 403 →
        env i ≠ 500 → env i ≠ 503 →
        requestRun env (fuel + 1) retry i refr slp last =
          some ⟨env i, i + 1, refr, slp⟩) ∧
      (¬retry < 5 →
        requestRun env (fuel + 1) retry i refr slp last =
          some ⟨last, i, refr, slp⟩) ∧
      ∀ res : ReqResult, apiRequest env fuel = some res → res.sleeps ≤ 5 := by
  intro env fuel retry i refr slp last
  refine ⟨?_, ?_, ?_, ?_, ?_⟩
  · intro hr h4
    rw [requestRun, if_pos hr]
    have h200 : ¬env i = 200 := by rcases h4 with h | h <;> omega
    rw [if_neg h200, if_pos h4]
  · intro hr h5
    rw [requestRun, if_pos hr]
    have h200 : ¬env i = 200 := by rcases h5 with h | h <;> omega
    have h4 : ¬(env i = 401 ∨ env i = 403) := by
      rcases h5 with h | h <;> omega
    rw [if_neg h200, if_neg h4, if_pos h5]
  · intro hr h200 h401 h403 h500 h503
    rw [requestRun, if_pos hr]
    have h4 : ¬(env i = 401 ∨ env i = 403) := by omega
    have h5 : ¬(env i = 500 ∨ env i = 503) := by omega
    rw [if_neg h200, if_neg h4, if_neg h5]
  · intro hr
    rw [requestRun, if_neg hr]
  · intro res h
    have := requestRun_sleeps_bound env fuel 0 0 0 0 0 res h
    omega

/-- Witness for C4's amended policy on the concrete script
`401, 500, 418, 200, 200, ...`: one immediate refresh-retry, one delayed
counted retry, an unmodified 418 return, the exhausted-budget return, and
the sleep bound at the call's actual result. -/
theorem request_retry_policy_amended_witness :
    (requestRun (fun i => [401, 500, 418].getD i 200) 10 0 0 0 0 0 =
      requestRun (fun i => [401, 500, 418].getD i 200) 9 0 1 1 0 401) ∧
    (requestRun (fun i => [401, 500, 418].getD i 200) 10 0 1 0 0 0 =
      requestRun (fun i => [401, 500, 418].getD i 200) 9 1 2 0 1 500) ∧
    (requestRun (fun i => [401, 500, 418].getD i 200) 10 0 2 0 0 0 =
      some ⟨418, 3, 0, 0⟩) ∧
    (requestRun (fun i => [401, 500, 418].getD i 200) 10 5 0 0 0 777 =
      some ⟨777, 0, 0, 0⟩) ∧
    (ReqResult.mk 418 3 1 1).sleeps ≤ 5 :=
  ⟨(request_retry_policy_amended (fun i => [401, 500, 418].getD i 200)
      9 0 0 0 0 0).1 (by omega) (Or.inl rfl),
   (request_retry_policy_amended (fun i => [401, 500, 418].getD i 200)
      9 0 1 0 0 0).2.1 (by omega) (Or.inl rfl),
   (request_retry_policy_amended (fun i => [401, 500, 418].getD i 200)
      9 0 2 0 0 0).2.2.1 (by omega) (by decide) (by decide) (by decide)
      (by decide) (by decide),
   (request_retry_policy_amended (fun i => [401, 500, 418].getD i 200)
      9 5 0 0 0 777).2.2.2.1 (by omega),
   (request_retry_policy_amended (fun i => [401, 500, 418].getD i 200)
      10 0 0 0 0 0).2.2.2.2 ⟨418, 3, 1, 1⟩ (by rfl)⟩

/-- Counterexample to claim C3: a candidate whose byte-stream upload gets
401 on the first attempt and would get 200 on a retry.  `Api.upload_file`
issues its `put` directly, not through `_request`, so no refresh-retry
happens: the raised status error is caught by `_upload_file`'s catch-all
and the candidate fails (`result = none`) with zero token refreshes,
refuting both "the candidate ultimately succeeds [with] exactly one
token-refresh call" and "the byte-stream upload call passes through the
shared auth/refresh retry policy". -/
theorem upload_stream_401_counterexample :
    uploadFileStep
        ⟨"/gphotos/x.jpg", [200], none, [200], [401, 200], [200], "MK"⟩ =
      ⟨none, 0, 1, 1⟩ := by
  rfl

/-- Claim C3, amended.  For the three per-candidate gateway calls that go
through `Api._request` — the dedup lookup, the upload-token request and
the commit — a first-attempt 401 followed by a 200 on the post-refresh
retry lets the candidate succeed with exactly one token-refresh call.
The byte-stream upload call is the exception: it bypasses the shared
policy and is attempted at most once per candidate, so a 401 there fails
the candidate (see the counterexample). -/
theorem upload_auth_retry_amended :
    ∀ e : UploadEnv,
      (e.findByHash = [401, 200] → e.remoteKey = none →
        e.uploadToken = [200] → e.uploadStream = [200] → e.commit = [200] →
        uploadFileStep e = ⟨some (e.path, e.newKey), 1, 1, 1⟩) ∧
      (e.findByHash = [200] → e.remoteKey = none →
        e.uploadToken = [401, 200] → e.uploadStream = [200] →
        e.commit = [200] →
        uploadFileStep e = ⟨some (e.path, e.newKey), 1, 1, 1⟩) ∧
      (e.findByHash = [200] → e.remoteKey = none → e.uploadToken = [200] →
        e.uploadStream = [200] → e.commit = [401, 200] →
        uploadFileStep e = ⟨some (e.path, e.newKey), 1, 1, 1⟩) ∧
      (uploadFileStep e).streamCalls ≤ 1 := by
  intro e
  cases e with
  | mk path fbh rk ut us cm nk =>
    refine ⟨?_, ?_, ?_, ?_⟩
    · intro h1 h2 h3 h4 h5
      subst h1; subst h2; subst h3; subst h4; subst h5
      rfl
    · intro h1 h2 h3 h4 h5
      subst h1; subst h2; subst h3; subst h4; subst h5
      rfl
    · intro h1 h2 h3 h4 h5
      subst h1; subst h2; subst h3; subst h4; subst h5
      rfl
    · unfold uploadFileStep
      dsimp only
      split
      · simp
      · split
        · split
          · simp
          · split
            · simp
            · split
              · simp
              · split
                · simp
                · simp
        · split
          · simp
          · split
            · simp
            · split
              · simp
              · simp

/-- Witness for C3's amended policy: each of the three `_request`-routed
calls recovering from a first-attempt 401, plus the stream-call bound at
the counterexample's input. -/
theorem upload_auth_retry_amended_witness :
    (uploadFileStep ⟨"/p", [401, 200], none, [200], [200], [200], "MK"⟩ =
      ⟨some ("/p", "MK"), 1, 1, 1⟩) ∧
    (uploadFileStep ⟨"/p", [200], none, [401, 200], [200], [200], "MK"⟩ =
      ⟨some ("/p", "MK"), 1, 1, 1⟩) ∧
    (uploadFileStep ⟨"/p", [200], none, [200], [200], [401, 200], "MK"⟩ =
      ⟨some ("/p", "MK"), 1, 1, 1⟩) ∧
    (uploadFileStep
        ⟨"/p", [200], none, [200], [401, 200], [200], "MK"⟩).streamCalls ≤
      1 :=
  ⟨(upload_auth_retry_amended
      ⟨"/p", [401, 200], none, [200], [200], [200], "MK"⟩).1
      rfl rfl rfl rfl rfl,
   (upload_auth_retry_amended
      ⟨"/p", [200], none, [401, 200], [200], [200], "MK"⟩).2.1
      rfl rfl rfl rfl rfl,
   (upload_auth_retry_amended
      ⟨"/p", [200], none, [200], [200], [401, 200], "MK"⟩).2.2.1
      rfl rfl rfl rfl rfl,
   (upload_auth_retry_amended
      ⟨"/p", [200], none, [200], [401, 200], [200], "MK"⟩).2.2.2⟩

/-- Claim C6.  A candidate whose dedup lookup succeeds and decodes to an
actual media key (non-empty — the walrus `if remote_media_key := ...`
tests truthiness) yields the mapping `path → mediaKey` as its result,
with zero upload-token calls and zero byte-stream upload attempts: no
file bytes are transferred. -/
theorem dedup_hit_no_transfer :
    ∀ (e : UploadEnv) (k : String),
      e.remoteKey = some k → k ≠ "" →
      (gatewayCall e.findByHash).ok = true →
      uploadFileStep e =
        ⟨some (e.path, k), (gatewayCall e.findByHash).refreshes, 0, 0⟩ := by
  intro e k hk hne hok
  have hd : (!(gatewayCall e.findByHash).ok) = false := by
    rw [hok]
    rfl
  simp only [uploadFileStep, hk, hd, Bool.false_eq_true, if_false]
  simp [hne]

/-- Witness for C6: a concrete candidate whose hash is already remote as
`"M1"`. -/
theorem dedup_hit_no_transfer_witness :
    uploadFileStep ⟨"/p/a.jpg", [200], some "M1", [], [], [], "zz"⟩ =
      ⟨some ("/p/a.jpg", "M1"), 0, 0, 0⟩ := by
  have h := dedup_hit_no_transfer
    ⟨"/p/a.jpg", [200], some "M1", [], [], [], "zz"⟩ "M1" rfl
    (by decide) (by rfl)
  simpa using h

theorem insertFS_perm (r : MediaItem) (l : List MediaItem) :
    (insertFS r l).Perm (r :: l) := by
  induction l with
  | nil => exact List.Perm.refl _
  | cons x xs ih =>
    unfold insertFS
    by_cases h : fsLe r x
    · rw [if_pos h]
    · rw [if_neg h]
      exact List.Perm.trans (List.Perm.cons x ih) (List.Perm.swap r x xs)

theorem sortFS_perm (l : List MediaItem) : (sortFS l).Perm l := by
  induction l with
  | nil => exact List.Perm.refl _
  | cons x xs ih =>
    exact List.Perm.trans (insertFS_perm x (sortFS xs)) (List.Perm.cons x ih)

/-- Claim C9.  On any mirror contents with distinct media keys (the
primary-key invariant), the duplicate-listing query returns, up to order,
exactly the spec's description: per `(fileName, sizeBytes)` group with
more than one record, the dedup keys of all records except the first in
`mediaKey` order — equivalently, of every record some group-mate of which
has a smaller media key. -/
theorem duplicates_query_matches_spec :
    ∀ rows : List MediaItem, (rows.map fun r => r.media_key).Nodup →
      (get_duplicate_files_by_name_and_size rows).Perm
        (listDuplicateDedupKeys_spec rows) := by
  intro rows hnd
  unfold get_duplicate_files_by_name_and_size listDuplicateDedupKeys_spec
  have hPQ : (fun r : MediaItem => decide (1 < rankIn rows r)) =
      fun r : MediaItem => rows.any fun x =>
        x.file_name == r.file_name && x.size_bytes == r.size_bytes &&
          decide (x.media_key < r.media_key) := by
    funext r
    rw [Bool.eq_iff_iff, decide_eq_true_eq, List.any_eq_true]
    unfold rankIn
    constructor
    · intro h
      have hlen : 0 < (rows.filter fun x =>
          x.file_name == r.file_name && x.size_bytes == r.size_bytes &&
            decide (x.media_key < r.media_key)).length := by omega
      obtain ⟨x, hx⟩ := List.length_pos_iff_exists_mem.mp hlen
      obtain ⟨hmem, hpred⟩ := List.mem_filter.mp hx
      exact ⟨x, hmem, hpred⟩
    · intro ⟨x, hmem, hpred⟩
      have hx : x ∈ rows.filter fun x =>
          x.file_name == r.file_name && x.size_bytes == r.size_bytes &&
            decide (x.media_key < r.media_key) :=
        List.mem_filter.mpr ⟨hmem, hpred⟩
      have hlen := List.length_pos_iff_exists_mem.mpr ⟨x, hx⟩
      omega
  rw [hPQ]
  exact List.Perm.map _ (List.Perm.trans (sortFS_perm _)
    (List.Perm.refl _))

/-- Witness for C9: three rows, two of which share `(file, size)`; the
query and the spec both name the dedup key of the larger-keyed record of
that pair. -/
theorem duplicates_query_matches_spec_witness :
    (get_duplicate_files_by_name_and_size
        [sampleItem "k1" "f" "d1" 5, sampleItem "k2" "f" "d2" 5,
         sampleItem "k3" "g" "d3" 7]).Perm
      (listDuplicateDedupKeys_spec
        [sampleItem "k1" "f" "d1" 5, sampleItem "k2" "f" "d2" 5,
         sampleItem "k3" "g" "d3" 7]) :=
  duplicates_query_matches_spec
    [sampleItem "k1" "f" "d1" 5, sampleItem "k2" "f" "d2" 5,
     sampleItem "k3" "g" "d3" 7] (by decide)

/-- A well-formed raw media entry for concrete scenarios. -/
def sampleRaw (key fname : String) : RawMediaItem :=
  { d1 := key, d2_3 := none, d2_4 := fname, dedup_key := some "dk",
    d2_5 := [], d5_1 := 1, d2_1_1 := "c", d2_10 := 5, d2_8 := none,
    d2_7 := 0, d2_9 := 0, d2_11 := 1, d2_35_2 := 0, d2_30_1 := 1,
    d2_26 := 1, d2_16_3 := none, d2_29_1 := 0, d2_31_1 := 0,
    d2_39_1 := 0, d2_35_3 := 2 }

/-- What `parse_media_item` makes of `sampleRaw key fname`. -/
def sampleParsed (key fname : String) : MediaItem :=
  { media_key := key, file_name := fname, dedup_key := "dk",
    is_canonical := true, type := 1, caption := none, collection_id := "c",
    size_bytes := 5, quota_charged_bytes := 0, origin := "self",
    content_version := 1, utc_timestamp := 0,
    server_creation_timestamp := 0, timezone_offset := some 0,
    upload_status := some 1, trash_timestamp := some 0,
    is_original_quality := true }

/-- Environment for the C1 counterexample: one steady-state page under
token `"p1"` carrying one item and one deletion, nothing else
reachable. -/
def c1Env : FetchEnv :=
  { library_state := fun _ => .error ()
    library_page_init := fun _ => .error ()
    library_page := fun pt _ =>
      if pt = "p1" then
        .ok ⟨some "", none, [sampleRaw "x" "fx"], [⟨1, some "z"⟩]⟩
      else .error () }

/-- Counterexample to claim C1's "the new cursor values are persisted
atomically with, or only after, the upsert/delete mutations of that page,
never before them": applying the single page of `c1Env` writes the cursor
first — the trace puts the `update_state_tokens` write strictly before the
page's upsert and delete. -/
theorem cursor_written_before_mutations_counterexample :
    (processPages c1Env "u" "st" 5 "p1"
        ⟨[], [⟨"st", "p1", true, "u"⟩]⟩).trace =
      [.putTokens none (some ""),
       .upsert [toRow "u" (sampleParsed "x" "fx")], .del ["z"]] := by
  rfl

/-- Every `_process_pages` trace is a sequence of complete page blocks:
cursor write, then that page's upserts, then its deletes. -/
theorem processPages_blocks (env : FetchEnv) (user st : String) :
    ∀ (fuel : Nat) (pt : String) (store : StorageState),
      IsPageBlocks (processPages env user st fuel pt store).trace := by
  intro fuel
  induction fuel with
  | zero => intro pt store; exact .nil
  | succ n ih =>
    intro pt store
    rw [processPages]
    split
    · exact .nil
    · split
      · exact .nil
      · split
        · exact .block _ _ _ _ .nil
        · exact .block _ _ _ _ (ih _ _)

/-- Claim C1, amended.  For every steady-state sync cycle and delta page:
a transport or decode failure while fetching a page leaves the storage —
cursor included — exactly as the already-applied pages left it, and
likewise the top-level fetch of `_cache_update` leaves the storage
untouched when it fails (the decode failure is additionally swallowed by
its `except`).  The cursor is persisted in the same page step as the
page's mutations but immediately BEFORE its upsert and delete batches,
not atomically-with-or-after them (the original "never before them" is
refuted by the counterexample): every trace is a sequence of blocks
`cursor write; upserts; deletes`.  Nothing is asserted about the failed
page being retried later: on its next run `_cache_update` reads only the
stored state token, not the page token. -/
theorem page_failure_and_cursor_order_amended :
    ∀ (env : FetchEnv) (user st pt : String) (fuel : Nat)
      (store : StorageState),
      (env.library_page pt st = .error () →
        processPages env user st (fuel + 1) pt store =
          ⟨store, [], some .transport⟩) ∧
      (∀ (resp : RawResponse) (e : String),
        env.library_page pt st = .ok resp → parse_db_update resp = .error e →
        processPages env user st (fuel + 1) pt store =
          ⟨store, [], some .decode⟩) ∧
      (env.library_state (getStateTokens user store).1 = .error () →
        cacheUpdate env user fuel store = ⟨store, [], some .transport⟩) ∧
      (∀ (resp : RawResponse) (e : String),
        env.library_state (getStateTokens user store).1 = .ok resp →
        parse_db_update resp = .error e →
        cacheUpdate env user fuel store = ⟨store, [], none⟩) ∧
      IsPageBlocks (processPages env user st fuel pt store).trace := by
  intro env user st pt fuel store
  refine ⟨?_, ?_, ?_, ?_, processPages_blocks env user st fuel pt store⟩
  · intro h
    rw [processPages, h]
  · intro resp e h1 h2
    rw [processPages, h1]
    dsimp only
    rw [h2]
  · intro h
    rw [cacheUpdate]
    dsimp only
    rw [h]
  · intro resp e h1 h2
    rw [cacheUpdate]
    dsimp only
    rw [h1]
    dsimp only
    rw [h2]

/-- Environment whose responses decode badly: the single raw item carries
the unknown origin code 9, so `parse_db_update` fails with the
`origin_map` key error. -/
def c1BadEnv : FetchEnv :=
  { library_state := fun _ =>
      .ok ⟨some "", none, [{ sampleRaw "x" "fx" with d2_30_1 := 9 }], []⟩
    library_page_init := fun _ => .error ()
    library_page := fun _ _ =>
      .ok ⟨some "", none, [{ sampleRaw "x" "fx" with d2_30_1 := 9 }], []⟩ }

/-- Witness for C1's amended failure/ordering discipline at concrete
inputs: a failing page fetch, a badly-decoding page, the same two cases
for the top-level fetch, and the block shape of a concrete trace. -/
theorem page_failure_and_cursor_order_amended_witness :
    (processPages c1Env "u" "st" 5 "q" ⟨[], [⟨"st", "p1", true, "u"⟩]⟩ =
      ⟨⟨[], [⟨"st", "p1", true, "u"⟩]⟩, [], some .transport⟩) ∧
    (processPages c1BadEnv "u" "st" 5 "q" ⟨[], [⟨"st", "p1", true, "u"⟩]⟩ =
      ⟨⟨[], [⟨"st", "p1", true, "u"⟩]⟩, [], some .decode⟩) ∧
    (cacheUpdate c1Env "u" 4 ⟨[], [⟨"st", "p1", true, "u"⟩]⟩ =
      ⟨⟨[], [⟨"st", "p1", true, "u"⟩]⟩, [], some .transport⟩) ∧
    (cacheUpdate c1BadEnv "u" 4 ⟨[], [⟨"st", "p1", true, "u"⟩]⟩ =
      ⟨⟨[], [⟨"st", "p1", true, "u"⟩]⟩, [], none⟩) ∧
    IsPageBlocks
      (processPages c1Env "u" "st" 5 "p1"
        ⟨[], [⟨"st", "p1", true, "u"⟩]⟩).trace :=
  ⟨(page_failure_and_cursor_order_amended c1Env "u" "st" "q" 4
      ⟨[], [⟨"st", "p1", true, "u"⟩]⟩).1 rfl,
   (page_failure_and_cursor_order_amended c1BadEnv "u" "st" "q" 4
      ⟨[], [⟨"st", "p1", true, "u"⟩]⟩).2.1
      ⟨some "", none, [{ sampleRaw "x" "fx" with d2_30_1 := 9 }], []⟩
      "KeyError: origin_map" rfl rfl,
   (page_failure_and_cursor_order_amended c1Env "u" "st" "q" 4
      ⟨[], [⟨"st", "p1", true, "u"⟩]⟩).2.2.1 rfl,
   (page_failure_and_cursor_order_amended c1BadEnv "u" "st" "q" 4
      ⟨[], [⟨"st", "p1", true, "u"⟩]⟩).2.2.2.1
      ⟨some "", none, [{ sampleRaw "x" "fx" with d2_30_1 := 9 }], []⟩
      "KeyError: origin_map" rfl rfl,
   (page_failure_and_cursor_order_amended c1Env "u" "st" "p1" 5
      ⟨[], [⟨"st", "p1", true, "u"⟩]⟩).2.2.2.2⟩

/-- Environment for the C5 counterexample: the top-level init fetch (empty
state token) answers with one item, one deletion (of `"dead"`), state
token `"s1"` and no further pages. -/
def c5Env : FetchEnv :=
  { library_state := fun st =>
      if st = "" then
        .ok ⟨some "", some "s1", [sampleRaw "b" "fb"], [⟨1, some "dead"⟩]⟩
      else .error ()
    library_page_init := fun _ => .error ()
    library_page := fun _ _ => .error () }

/-- Counterexample to claim C5's "the items AND the deletions returned by
the top-level state fetch are both applied to the mirror before the
returned stateToken/pageToken are persisted": running `_cache_init` from a
mirror that contains the to-be-deleted record, the record survives (the
deletions of the top-level init fetch are dropped by the `_` unpacking)
and the trace persists the tokens strictly before it upserts the items. -/
theorem init_drops_deletions_counterexample :
    (cacheInit c5Env "u" 5 ⟨[sampleItem "dead" "f0" "d0" 1],
        [⟨"", "", false, "u"⟩]⟩).store.remote_media =
      [sampleItem "dead" "f0" "d0" 1, toRow "u" (sampleParsed "b" "fb")] ∧
    (cacheInit c5Env "u" 5 ⟨[sampleItem "dead" "f0" "d0" 1],
        [⟨"", "", false, "u"⟩]⟩).trace =
      [.putTokens (some "s1") (some ""),
       .upsert [toRow "u" (sampleParsed "b" "fb")]] := ⟨rfl, rfl⟩

/-- Claim C5, amended.  In `PAGING_INIT` (`_cache_init`): a leftover
non-empty page token is resumed before the top-level state fetch — a
failure of that resume preempts the top-level fetch entirely, and on
success the resume's storage writes precede everything else.  The
top-level fetch's ITEMS are applied immediately AFTER its returned
`stateToken`/`pageToken` are persisted (not before), and its DELETIONS
are discarded, never reaching the mirror (see the counterexample). -/
theorem init_resume_and_toplevel_order_amended :
    ∀ (env : FetchEnv) (u : String) (fuel : Nat) (store : StorageState)
      (st pt : String),
      getStateTokens u store = (st, pt) →
      (pt ≠ "" →
        ∀ e, (processPagesInit env u fuel pt store).err = some e →
          cacheInit env u fuel store =
            ⟨(processPagesInit env u fuel pt store).store,
             (processPagesInit env u fuel pt store).trace, some e⟩) ∧
      (pt = "" →
        ∀ (resp : RawResponse) (st' : String) (items : List MediaItem)
          (dels : List String),
          env.library_state st = .ok resp →
          parse_db_update resp = .ok (st', "", items, dels) →
          cacheInit env u fuel store =
            ⟨storageUpdate u items
               (updateStateTokens u (some st') (some "") store),
             [.putTokens (some st') (some ""),
              .upsert (items.map (toRow u))], none⟩) ∧
      (pt ≠ "" →
        (processPagesInit env u fuel pt store).err = none →
        ∀ (resp : RawResponse) (st' : String) (items : List MediaItem)
          (dels : List String),
          env.library_state st = .ok resp →
          parse_db_update resp = .ok (st', "", items, dels) →
          cacheInit env u fuel store =
            ⟨storageUpdate u items
               (updateStateTokens u (some st') (some "")
                 (processPagesInit env u fuel pt store).store),
             (processPagesInit env u fuel pt store).trace ++
               [.putTokens (some st') (some ""),
                .upsert (items.map (toRow u))], none⟩) := by
  intro env u fuel store st pt h
  refine ⟨?_, ?_, ?_⟩
  · intro hpt e herr
    rw [cacheInit, h]
    dsimp only
    rw [if_neg hpt, herr]
  · intro hpt resp st2 items dels hfetch hparse
    subst hpt
    rw [cacheInit, h]
    dsimp only
    rw [if_pos rfl]
    dsimp only
    rw [hfetch]
    dsimp only
    rw [hparse]
    dsimp only
    rw [if_pos rfl, List.nil_append]
  · intro hpt herr resp st2 items dels hfetch hparse
    rw [cacheInit, h]
    dsimp only
    rw [if_neg hpt, herr]
    dsimp only
    rw [hfetch]
    dsimp only
    rw [hparse]
    dsimp only
    rw [if_pos rfl]

/-- Environment for the C5 witness's resume case: a resumable init page
under `"pY"` and a top-level state fetch for `"sB"`. -/
def c5ResumeEnv : FetchEnv :=
  { library_state := fun st =>
      if st = "sB" then .ok ⟨some "", some "s2", [sampleRaw "c" "fc"], []⟩
      else .error ()
    library_page_init := fun pt =>
      if pt = "pY" then .ok ⟨some "", none, [sampleRaw "d" "fd"], []⟩
      else .error ()
    library_page := fun _ _ => .error () }

/-- Witness for C5's amended behaviour: a failing resume preempting the
state fetch, a no-resume init applying items right after the token write,
and a successful resume whose writes precede the top-level block. -/
theorem init_resume_and_toplevel_order_amended_witness :
    (cacheInit c1Env "u" 3 ⟨[], [⟨"sA", "pX", false, "u"⟩]⟩ =
      ⟨(processPagesInit c1Env "u" 3 "pX"
          ⟨[], [⟨"sA", "pX", false, "u"⟩]⟩).store,
       (processPagesInit c1Env "u" 3 "pX"
          ⟨[], [⟨"sA", "pX", false, "u"⟩]⟩).trace, some .transport⟩) ∧
    (cacheInit c5Env "u" 3 ⟨[], [⟨"", "", false, "u"⟩]⟩ =
      ⟨storageUpdate "u" [sampleParsed "b" "fb"]
         (updateStateTokens "u" (some "s1") (some "")
           ⟨[], [⟨"", "", false, "u"⟩]⟩),
       [.putTokens (some "s1") (some ""),
        .upsert [toRow "u" (sampleParsed "b" "fb")]], none⟩) ∧
    (cacheInit c5ResumeEnv "u" 3 ⟨[], [⟨"sB", "pY", false, "u"⟩]⟩ =
      ⟨storageUpdate "u" [sampleParsed "c" "fc"]
         (updateStateTokens "u" (some "s2") (some "")
           (processPagesInit c5ResumeEnv "u" 3 "pY"
             ⟨[], [⟨"sB", "pY", false, "u"⟩]⟩).store),
       (processPagesInit c5ResumeEnv "u" 3 "pY"
          ⟨[], [⟨"sB", "pY", false, "u"⟩]⟩).trace ++
         [.putTokens (some "s2") (some ""),
          .upsert [toRow "u" (sampleParsed "c" "fc")]], none⟩) :=
  ⟨(init_resume_and_toplevel_order_amended c1Env "u" 3
      ⟨[], [⟨"sA", "pX", false, "u"⟩]⟩ "sA" "pX" rfl).1
      (by decide) .transport rfl,
   (init_resume_and_toplevel_order_amended c5Env "u" 3
      ⟨[], [⟨"", "", false, "u"⟩]⟩ "" "" rfl).2.1 rfl
      ⟨some "", some "s1", [sampleRaw "b" "fb"], [⟨1, some "dead"⟩]⟩
      "s1" [sampleParsed "b" "fb"] ["dead"] rfl rfl,
   (init_resume_and_toplevel_order_amended c5ResumeEnv "u" 3
      ⟨[], [⟨"sB", "pY", false, "u"⟩]⟩ "sB" "pY" rfl).2.2
      (by decide) rfl
      ⟨some "", some "s2", [sampleRaw "c" "fc"], []⟩
      "s2" [sampleParsed "c" "fc"] [] rfl rfl⟩

theorem toRow_media_key (u : String) (it : MediaItem) :
    (toRow u it).media_key = it.media_key := rfl

/-- Claim C2.  From cursor `("", "")` with `initComplete = false` (the
empty store: first contact creates exactly that default state row), when
the first top-level fetch returns `(stateToken = "s1", pageToken = "p1",
items = [A], deletions = [])`, the page fetch for `"p1"` returns
`(_, "", items = [B], deletions = [A's key])`, and the follow-up
steady-state fetch that `update_cache` always runs afterwards reports no
further changes, the run ends with the mirror holding exactly B (no row
for A's media key), the cursor equal to `("s1", "")` and
`initComplete = true`; the trace lists every storage write of the run.
A's media key must be non-empty, as an actual media key is: the deletion
loop's walrus test skips an empty decoded key, so a scenario "deleting"
the empty string would leave A's row behind. -/
theorem initial_sync_scenario :
    ∀ (env : FetchEnv) (u : String) (fuel : Nat) (rawA rawB : RawMediaItem)
      (A B : MediaItem),
      parse_media_item rawA = .ok A →
      parse_media_item rawB = .ok B →
      A.media_key ≠ "" →
      A.media_key ≠ B.media_key →
      env.library_state "" = .ok ⟨some "p1", some "s1", [rawA], []⟩ →
      env.library_page_init "p1" =
        .ok ⟨some "", none, [rawB], [⟨1, some A.media_key⟩]⟩ →
      env.library_state "s1" = .ok ⟨none, some "s1", [], []⟩ →
      updateCache env u (fuel + 1) emptyStorage =
        ⟨⟨[toRow u B], [⟨"s1", "", true, u⟩]⟩,
         [.putTokens (some "s1") (some "p1"), .upsert [toRow u A],
          .putTokens none (some ""), .upsert [toRow u B],
          .del [A.media_key],
          .putTokens (some "s1") (some ""), .upsert [], .del []],
         none⟩ := by
  intro env u fuel rawA rawB A B h1 h2 hAne hk henv1 henv2 henv3
  have hk' : B.media_key ≠ A.media_key := Ne.symm hk
  have hbAB : (A.media_key == B.media_key) = false :=
    beq_eq_false_iff_ne.mpr hk
  have hbBA : (B.media_key == A.media_key) = false :=
    beq_eq_false_iff_ne.mpr (Ne.symm hk)
  have hpi1 : parseItems [rawA] = .ok [A] := by
    rw [parseItems, h1]
    rfl
  have hpi2 : parseItems [rawB] = .ok [B] := by
    rw [parseItems, h2]
    rfl
  have hparse1 : parse_db_update ⟨some "p1", some "s1", [rawA], []⟩ =
      .ok ("s1", "p1", [A], []) := by
    unfold parse_db_update
    rw [hpi1]
    rfl
  have hdk2 : deletionKeys [⟨1, some A.media_key⟩] = .ok [A.media_key] := by
    simp [deletionKeys, parseDeletionItem, hAne]
  have hparse2 : parse_db_update
      ⟨some "", none, [rawB], [⟨1, some A.media_key⟩]⟩ =
      .ok ("", "", [B], [A.media_key]) := by
    unfold parse_db_update
    rw [hpi2]
    dsimp only
    rw [hdk2]
    rfl
  have hparse3 : parse_db_update ⟨none, some "s1", [], []⟩ =
      .ok ("s1", "", [], []) := rfl
  -- storage sub-evaluations (the `u == u` checks need `beq_self_eq_true`)
  have hst0 : getStateTokens u ⟨[], [⟨"", "", false, u⟩]⟩ = ("", "") := by
    simp [getStateTokens]
  have hupd1 : updateStateTokens u (some "s1") (some "p1")
      ⟨[], [⟨"", "", false, u⟩]⟩ = ⟨[], [⟨"s1", "p1", false, u⟩]⟩ := by
    simp [updateStateTokens]
  have hsu1 : storageUpdate u [A] ⟨[], [⟨"s1", "p1", false, u⟩]⟩ =
      ⟨[toRow u A], [⟨"s1", "p1", false, u⟩]⟩ := by
    simp [storageUpdate, storageUpdateRows, upsertOne]
  have hupd2 : updateStateTokens u none (some "")
      ⟨[toRow u A], [⟨"s1", "p1", false, u⟩]⟩ =
      ⟨[toRow u A], [⟨"s1", "", false, u⟩]⟩ := by
    simp [updateStateTokens]
  have hsu2 : storageUpdate u [B] ⟨[toRow u A], [⟨"s1", "", false, u⟩]⟩ =
      ⟨[toRow u A, toRow u B], [⟨"s1", "", false, u⟩]⟩ := by
    simp [storageUpdate, storageUpdateRows, upsertOne, toRow_media_key,
      hbAB, hk]
  have hdel2 : storageDelete [A.media_key]
      ⟨[toRow u A, toRow u B], [⟨"s1", "", false, u⟩]⟩ =
      ⟨[toRow u B], [⟨"s1", "", false, u⟩]⟩ := by
    simp [storageDelete, storageDeleteRows, toRow_media_key, hbBA, hk',
      List.contains, List.elem]
  have hpp : processPagesInit env u (fuel + 1) "p1"
      ⟨[toRow u A], [⟨"s1", "p1", false, u⟩]⟩ =
      ⟨⟨[toRow u B], [⟨"s1", "", false, u⟩]⟩,
       [.putTokens none (some ""), .upsert [toRow u B],
        .del [A.media_key]], none⟩ := by
    rw [processPagesInit, henv2]
    dsimp only
    rw [hparse2]
    dsimp only
    rw [if_pos rfl, hupd2, hsu2, hdel2]
    rfl
  have hr1 : cacheInit env u (fuel + 1) ⟨[], [⟨"", "", false, u⟩]⟩ =
      ⟨⟨[toRow u B], [⟨"s1", "", false, u⟩]⟩,
       [.putTokens (some "s1") (some "p1"), .upsert [toRow u A],
        .putTokens none (some ""), .upsert [toRow u B],
        .del [A.media_key]], none⟩ := by
    rw [cacheInit, hst0]
    dsimp only
    rw [if_pos rfl]
    dsimp only
    rw [henv1]
    dsimp only
    rw [hparse1]
    dsimp only
    rw [if_neg (by decide : ¬("p1" : String) = ""), hupd1, hsu1, hpp]
    rfl
  have hset : setInitState u true ⟨[toRow u B], [⟨"s1", "", false, u⟩]⟩ =
      ⟨[toRow u B], [⟨"s1", "", true, u⟩]⟩ := by
    simp [setInitState]
  have hstD : getStateTokens u ⟨[toRow u B], [⟨"s1", "", true, u⟩]⟩ =
      ("s1", "") := by
    simp [getStateTokens]
  have hupd3 : updateStateTokens u (some "s1") (some "")
      ⟨[toRow u B], [⟨"s1", "", true, u⟩]⟩ =
      ⟨[toRow u B], [⟨"s1", "", true, u⟩]⟩ := by
    simp [updateStateTokens]
  have hr2 : cacheUpdate env u (fuel + 1)
      ⟨[toRow u B], [⟨"s1", "", true, u⟩]⟩ =
      ⟨⟨[toRow u B], [⟨"s1", "", true, u⟩]⟩,
       [.putTokens (some "s1") (some ""), .upsert [], .del []],
       none⟩ := by
    rw [cacheUpdate]
    dsimp only
    rw [hstD]
    dsimp only
    rw [henv3]
    dsimp only
    rw [hparse3]
    dsimp only
    rw [if_pos rfl, hupd3]
    rfl
  have hgi : getInitState u emptyStorage =
      (false, ⟨[], [⟨"", "", false, u⟩]⟩) := rfl
  simp only [updateCache, hgi, Bool.false_eq_true, if_false, hr1, hset,
    hr2, List.cons_append, List.nil_append]


/-- Environment realising the C2 scenario with concrete items `A` and
`B` (media keys `"A"`, `"B"`). -/
def c2Env : FetchEnv :=
  { library_state := fun st =>
      if st = "" then .ok ⟨some "p1", some "s1", [sampleRaw "A" "fa"], []⟩
      else if st = "s1" then .ok ⟨none, some "s1", [], []⟩
      else .error ()
    library_page_init := fun pt =>
      if pt = "p1" then
        .ok ⟨some "", none, [sampleRaw "B" "fb"], [⟨1, some "A"⟩]⟩
      else .error ()
    library_page := fun _ _ => .error () }

/-- Witness for C2 at the concrete environment `c2Env`. -/
theorem initial_sync_scenario_witness :
    updateCache c2Env "u" 3 emptyStorage =
      ⟨⟨[toRow "u" (sampleParsed "B" "fb")], [⟨"s1", "", true, "u"⟩]⟩,
       [.putTokens (some "s1") (some "p1"),
        .upsert [toRow "u" (sampleParsed "A" "fa")],
        .putTokens none (some ""),
        .upsert [toRow "u" (sampleParsed "B" "fb")], .del ["A"],
        .putTokens (some "s1") (some ""), .upsert [], .del []],
       none⟩ :=
  initial_sync_scenario c2Env "u" 2 (sampleRaw "A" "fa")
    (sampleRaw "B" "fb") (sampleParsed "A" "fa") (sampleParsed "B" "fb")
    rfl rfl (by decide) (by decide) rfl rfl rfl
